import Mathlib

/-
Verification of the portfolio repository's PDF viewer / scrollbar / cipher logic.

Shallow embedding conventions:
* JavaScript numbers are modelled as `ℚ` (all arithmetic in the sources is
  exact on the inputs of interest); `Math.floor` is `Int.floor`.
* JavaScript strings are Lean `String`s; char codes are `ℕ` (UTF-16 units).
* DOM reads (clientHeight, scrollHeight, scrollTop, ...) become explicit
  function arguments; DOM writes become returned values.
* The async render effect of `PdfViewer.tsx` is modelled as a small-step
  event system whose steps are the segments between `await` points of the
  single-threaded event loop.
-/

namespace Portfolio

/-! ### Zoom controls (`PdfViewer.tsx` lines 240-242) -/

/-- Embeds `handleZoomIn`: `setZoom((z) => Math.min(z + 0.25, 2))`. -/
def handleZoomIn (z : ℚ) : ℚ := min (z + 1/4) 2

/-- Embeds `handleZoomOut`: `setZoom((z) => Math.max(z - 0.25, 1))`. -/
def handleZoomOut (z : ℚ) : ℚ := max (z - 1/4) 1

/-- Embeds `handleReset`: `setZoom(1)`. -/
def handleReset (_z : ℚ) : ℚ := 1

/-- A user zoom action: the three buttons of the viewer's control bar. -/
inductive ZoomOp
| zin
| zout
| reset
deriving DecidableEq, Repr

/-- Apply one zoom action to the current zoom factor. -/
def zoomStep : ZoomOp → ℚ → ℚ
| .zin, z => handleZoomIn z
| .zout, z => handleZoomOut z
| .reset, z => handleReset z

/-- Run a finite sequence of zoom actions from a starting zoom factor. -/
def zoomApply (ops : List ZoomOp) (z : ℚ) : ℚ :=
  ops.foldl (fun acc op => zoomStep op acc) z

/-- The zoom factors reachable in the UI: 100%, 125%, 150%, 175%, 200%. -/
def zoomValues : List ℚ := [1, 5/4, 3/2, 7/4, 2]

/-! ### Contact-info cipher (`App.tsx`; `src/unnamed/part_001` lines 7, 50-51,
61-66, 79-86, and the re-encoder in `src/unnamed/part_000` lines 63-70) -/

/-- Embeds `const _css1 = "visibility"`. -/
def _css1 : String := "visibility"

/-- Embeds `const _css2 = "Keyframes"`. -/
def _css2 : String := "Keyframes"

/-- Embeds `const _attr = "9rem"`. -/
def _attr : String := "9rem"

/-- Embeds `const _prop = "boxShadow"`. -/
def _prop : String := "boxShadow"

/-- Embeds `const _anim = "Quantum"`. -/
def _anim : String := "Quantum"

/-- Embeds `const _unit = "2px"`. -/
def _unit : String := "2px"

/-- Embeds `const _mode = "maxHeight"`. -/
def _mode : String := "maxHeight"

/-- The cipher key assembled from the scattered literals:
`_k = _css1[0] + _css2[0] + _attr[0] + _prop[2] + _anim[0] + _unit[0] + _mode[0]`. -/
def _k : String :=
  String.mk [_css1.data.getD 0 'A', _css2.data.getD 0 'A', _attr.data.getD 0 'A',
    _prop.data.getD 2 'A', _anim.data.getD 0 'A', _unit.data.getD 0 'A',
    _mode.data.getD 0 'A']

/-- Per-index shift of the cipher:
`(_k.charCodeAt(i % _k.length) % 13) + 1`. -/
def shiftAt (i : ℕ) : ℕ :=
  ((_k.data.getD (i % _k.length) 'A').toNat % 13) + 1

/-- Index-tracking worker for `decode`.  `String.fromCharCode` converts its
argument to a UTF-16 unit (ToUint16, i.e. mod 2^16), hence the `% 65536`. -/
def decodeFrom : ℕ → List ℤ → List ℕ
| _, [] => []
| i, c :: rest => ((c - (shiftAt i : ℤ)) % 65536).toNat :: decodeFrom (i + 1) rest

/-- Embeds `decode`: `codes.map((code, i) => String.fromCharCode(code - shift))`,
returned as the list of char codes of the resulting string. -/
def decode (codes : List ℤ) : List ℕ := decodeFrom 0 codes

/-- Index-tracking worker for `encode`. -/
def encodeFrom : ℕ → List ℕ → List ℤ
| _, [] => []
| i, c :: rest => ((c : ℤ) + (shiftAt i : ℤ)) :: encodeFrom (i + 1) rest

/-- Embeds `encode` (from the obfuscation reference file, `part_000`):
`str.split('').map((c, i) => c.charCodeAt(0) + shift)`, the input string
given as its list of char codes. -/
def encode (s : List ℕ) : List ℤ := encodeFrom 0 s

/-! ### Thumb geometry (`PdfViewer.tsx` `updateScrollbar` lines 29-47 and
`CustomScrollbar` (`part_002`) `updateScrollbar` lines 24-41) -/

/-- Thumb length of the viewer's internal scrollbar:
`thumbPx = Math.max((clientHeight / scrollHeight) * clientHeight, 40)`. -/
def pdfThumbHeight (scrollHeight clientHeight : ℚ) : ℚ :=
  max ((clientHeight / scrollHeight) * clientHeight) 40

/-- Thumb offset of the viewer's internal scrollbar:
`scrollPercent = maxScroll > 0 ? scrollTop / maxScroll : 0`;
`thumbTop = scrollPercent * (clientHeight - thumbPx)`. -/
def pdfThumbTop (scrollHeight clientHeight scrollTop : ℚ) : ℚ :=
  let maxScroll := scrollHeight - clientHeight
  let scrollPercent := if maxScroll > 0 then scrollTop / maxScroll else 0
  scrollPercent * (clientHeight - pdfThumbHeight scrollHeight clientHeight)

/-- Track length of the page-level scrollbar:
`trackHeight = viewHeight - (isEdge ? 10 : 4)`. -/
def pageTrackHeight (isEdge : Bool) (viewHeight : ℚ) : ℚ :=
  viewHeight - (if isEdge then 10 else 4)

/-- Thumb length of the page-level scrollbar:
`thumbPx = Math.max((viewHeight / docHeight) * trackHeight, 40)`. -/
def pageThumbHeight (isEdge : Bool) (docHeight viewHeight : ℚ) : ℚ :=
  max ((viewHeight / docHeight) * pageTrackHeight isEdge viewHeight) 40

/-- Thumb offset of the page-level scrollbar:
`thumbTop = scrollPercent * (trackHeight - thumbPx)` with
`scrollPercent = maxScroll > 0 ? scrollTop / maxScroll : 0`,
`maxScroll = docHeight - viewHeight`. -/
def pageThumbTop (isEdge : Bool) (docHeight viewHeight scrollTop : ℚ) : ℚ :=
  let maxScroll := docHeight - viewHeight
  let scrollPercent := if maxScroll > 0 then scrollTop / maxScroll else 0
  scrollPercent * (pageTrackHeight isEdge viewHeight - pageThumbHeight isEdge docHeight viewHeight)

/-! ### Thumb drag mapping (`PdfViewer.tsx` `handleMouseMove` lines 253-266 and
`CustomScrollbar` (`part_002`) `handleMouseMove` lines 97-108) -/

/-- New scroll offset of the viewer's scroll area after a drag movement:
`scrollDelta = (deltaY / maxThumbTop) * maxScroll` with
`maxThumbTop = clientHeight - thumbHeight`, `maxScroll = scrollHeight - clientHeight`;
`scrollArea.scrollTop = dragStartScroll + scrollDelta`. -/
def pdfDragScrollTop (dragStartScroll deltaY clientHeight scrollHeight thumbHeight : ℚ) : ℚ :=
  let maxScroll := scrollHeight - clientHeight
  let maxThumbTop := clientHeight - thumbHeight
  dragStartScroll + (deltaY / maxThumbTop) * maxScroll

/-- New page scroll offset after a drag movement on the page-level thumb:
`window.scrollTo(0, dragStartScroll + (deltaY / (viewHeight - thumbHeight)) * (docHeight - viewHeight))`. -/
def pageDragScrollTop (dragStartScroll deltaY viewHeight docHeight thumbHeight : ℚ) : ℚ :=
  let maxScroll := docHeight - viewHeight
  let maxThumbTop := viewHeight - thumbHeight
  dragStartScroll + (deltaY / maxThumbTop) * maxScroll

/-! ### Wheel routing (`App.tsx`, `part_001`: `handleWheel` lines 165-216 of the
first revision and lines 884-949 of the second revision) -/

/-- A wheel event as seen by the window-level handler: its `deltaY`, whether
its target lies inside the `.pdf-scroll-area`, and the `data-zoom` attribute
of the closest `.pdf-container` (`none` when absent). -/
structure WheelEvent where
  deltaY : ℚ
  insidePdfScrollArea : Bool
  zoomAttr : Option ℚ
deriving DecidableEq

/-- The guard of the PDF branch:
`pdfScrollArea && zoom && parseFloat(zoom) > 1`. -/
def pdfRouted (e : WheelEvent) : Bool :=
  e.insidePdfScrollArea &&
    (match e.zoomAttr with
     | some z => decide (z > 1)
     | none => false)

/-- What a wheel-handler run does: whether it calls `preventDefault` /
`stopPropagation`, the resulting internal scroll offset of the PDF scroll
area, and the page section it navigates to (if any). -/
structure WheelOutcome where
  preventDefault : Bool
  stopPropagation : Bool
  pdfScrollTop : ℚ
  navTarget : Option ℕ
deriving DecidableEq

/-- State read by the first revision's wheel handler. -/
structure PageNavState1 where
  pdfScrollTop : ℚ
  isScrolling : Bool
  currentSection : ℕ
  numSections : ℕ

/-- First-revision `handleWheel` (lines 165-216): PDF branch when zoomed in,
otherwise `preventDefault` and debounced section navigation
(`nextSection = Math.max(0, Math.min(len - 1, current + direction))`). -/
def handleWheel1 (st : PageNavState1) (e : WheelEvent) : WheelOutcome :=
  if pdfRouted e then
    ⟨true, true, st.pdfScrollTop + e.deltaY, none⟩
  else
    let nav :=
      if st.isScrolling then none
      else
        let direction : ℤ := if e.deltaY > 0 then 1 else -1
        let nextSection : ℤ :=
          max 0 (min ((st.numSections : ℤ) - 1) ((st.currentSection : ℤ) + direction))
        if nextSection ≠ (st.currentSection : ℤ) then some nextSection.toNat else none
    ⟨true, false, st.pdfScrollTop, nav⟩

/-- A page section's layout box: `offsetTop` and `offsetHeight`. -/
structure SectionRect where
  offsetTop : ℚ
  offsetHeight : ℚ

/-- Embeds `visiblePercent` of one section (second revision, lines 810-814). -/
def visiblePercent (scrollY viewportHeight : ℚ) (s : SectionRect) : ℚ :=
  let sectionTop := s.offsetTop
  let sectionBottom := sectionTop + s.offsetHeight
  let visibleTop := max sectionTop scrollY
  let visibleBottom := min sectionBottom (scrollY + viewportHeight)
  let visibleHeight := max 0 (visibleBottom - visibleTop)
  visibleHeight / viewportHeight

/-- Whether a section overlaps the viewport (second revision, line 837). -/
def overlapsViewport (scrollY viewportHeight : ℚ) (s : SectionRect) : Bool :=
  decide (s.offsetTop + s.offsetHeight > scrollY) &&
    decide (s.offsetTop < scrollY + viewportHeight)

/-- The closest-center fallback of `detectCurrentSection` (second revision,
lines 854-868): running minimum of distance from the scroll center, with
`none` standing for the initial `Infinity`. -/
def closestSection (scrollCenter : ℚ) (sections : List SectionRect) : ℕ :=
  (sections.enum.foldl
    (fun (acc : ℕ × Option ℚ) (p : ℕ × SectionRect) =>
      let center := p.2.offsetTop + p.2.offsetHeight / 2
      let dist := abs (scrollCenter - center)
      match acc.2 with
      | none => (p.1, some dist)
      | some best => if dist < best then (p.1, some dist) else acc)
    (0, none)).1

/-- Embeds `detectCurrentSection(direction)` of the second revision (lines 801-869):
first section covering more than 60% of the viewport; otherwise, with a
direction, the farthest/nearest partially visible section; otherwise the
section with the closest center. -/
def detectCurrentSection2 (scrollY viewportHeight : ℚ) (sections : List SectionRect)
    (direction : ℤ) (cur : ℕ) : ℕ :=
  match (List.range sections.length).find? (fun i =>
      decide (visiblePercent scrollY viewportHeight (sections.getD i ⟨0, 0⟩) > 3/5)) with
  | some i => i
  | none =>
    if direction ≠ 0 then
      let visibleSections := (List.range sections.length).filter (fun i =>
        overlapsViewport scrollY viewportHeight (sections.getD i ⟨0, 0⟩))
      match visibleSections with
      | [] => cur
      | _ :: _ =>
        if direction > 0 then visibleSections.getLast?.getD cur
        else visibleSections.head?.getD cur
    else
      closestSection (scrollY + viewportHeight / 2) sections

/-- State read by the second revision's wheel handler. -/
structure PageNavState2 where
  pdfScrollTop : ℚ
  isScrolling : Bool
  currentSection : ℕ
  scrollY : ℚ
  viewportHeight : ℚ
  sections : List SectionRect

/-- Second-revision `handleWheel` (lines 884-949): identical PDF branch;
the navigation path checks alignment to the current section, re-detects the
section in the scroll direction, and scrolls to the chosen target. -/
def handleWheel2 (st : PageNavState2) (e : WheelEvent) : WheelOutcome :=
  if pdfRouted e then
    ⟨true, true, st.pdfScrollTop + e.deltaY, none⟩
  else
    let nav :=
      if st.isScrolling then none
      else
        let direction : ℤ := if e.deltaY > 0 then 1 else -1
        let isAligned :=
          match st.sections.get? st.currentSection with
          | some s => decide (abs (st.scrollY - s.offsetTop) < 10)
          | none => false
        let detected :=
          detectCurrentSection2 st.scrollY st.viewportHeight st.sections direction
            st.currentSection
        let nextSection : ℕ :=
          if isAligned then
            (max 0 (min ((st.sections.length : ℤ) - 1) ((detected : ℤ) + direction))).toNat
          else detected
        if nextSection ≠ detected ∨ isAligned = false then some nextSection else none
    ⟨true, false, st.pdfScrollTop, nav⟩

/-! ### Render geometry (`PdfViewer.tsx` `renderPdf` lines 107-140) -/

/-- Embeds `window.devicePixelRatio || 1`. -/
def deviceRatio (devicePixelRatio : ℚ) : ℚ :=
  if devicePixelRatio = 0 then 1 else devicePixelRatio

/-- Embeds `outputScale = Math.max(1.5, deviceRatio)`. -/
def outputScale (devicePixelRatio : ℚ) : ℚ :=
  max (3/2) (deviceRatio devicePixelRatio)

/-- Unscaled dimensions of PDF page 1. -/
structure PageDims where
  width : ℚ
  height : ℚ

/-- Embeds `page.getViewport({ scale })` of the external rasterization library:
dimensions scale linearly (rotation 0). -/
def viewportAt (page : PageDims) (scale : ℚ) : PageDims :=
  ⟨page.width * scale, page.height * scale⟩

/-- Embeds `calculatedBaseScale = containerHeight / unscaledViewport.height`. -/
def baseScale (containerHeight : ℚ) (page : PageDims) : ℚ :=
  containerHeight / (viewportAt page 1).height

/-- Embeds `displayScale = calculatedBaseScale * zoom`. -/
def displayScale (containerHeight : ℚ) (page : PageDims) (zoom : ℚ) : ℚ :=
  baseScale containerHeight page * zoom

/-- Embeds `renderScale = displayScale * outputScale`. -/
def renderScale (containerHeight : ℚ) (page : PageDims) (zoom devicePixelRatio : ℚ) : ℚ :=
  displayScale containerHeight page zoom * outputScale devicePixelRatio

/-- Embeds `canvas.width = Math.floor(renderViewport.width)`. -/
def canvasPixelWidth (containerHeight : ℚ) (page : PageDims) (zoom devicePixelRatio : ℚ) : ℤ :=
  Int.floor (viewportAt page (renderScale containerHeight page zoom devicePixelRatio)).width

/-- Embeds `canvas.height = Math.floor(renderViewport.height)`. -/
def canvasPixelHeight (containerHeight : ℚ) (page : PageDims) (zoom devicePixelRatio : ℚ) : ℤ :=
  Int.floor (viewportAt page (renderScale containerHeight page zoom devicePixelRatio)).height

/-- Embeds `canvas.style.width = displayViewport.width px` (presented CSS width). -/
def canvasCssWidth (containerHeight : ℚ) (page : PageDims) (zoom : ℚ) : ℚ :=
  (viewportAt page (displayScale containerHeight page zoom)).width

/-- Embeds `canvas.style.height = displayViewport.height px` (presented CSS height). -/
def canvasCssHeight (containerHeight : ℚ) (page : PageDims) (zoom : ℚ) : ℚ :=
  (viewportAt page (displayScale containerHeight page zoom)).height

/-! ### Error handling of the render effect (`PdfViewer.tsx` lines 77-85 and
175-185) -/

/-- A JavaScript value caught by `catch`: an object bearing a `name`
property, an object without one, or a primitive/null value. -/
inductive CaughtError
| named (name : String)
| unnamedObject
| primitive
deriving DecidableEq

/-- The log decision of the render effect's catch block:
`error && typeof error === "object" && "name" in error && error.name !== "RenderingCancelledException"`. -/
def renderEffectLog (e : CaughtError) : Option String :=
  match e with
  | .named n => if n ≠ "RenderingCancelledException" then some "Error rendering PDF:" else none
  | .unnamedObject => none
  | .primitive => none

/-- Result of a catch handler: what it logged, whether it rethrew, and the
viewer state it left behind. -/
structure CatchOutcome (σ : Type) where
  log : Option String
  rethrown : Bool
  state : σ

/-- The render effect's catch block (lines 175-185): logs genuine errors,
never rethrows, never touches viewer state. -/
def renderEffectCatch {σ : Type} (e : CaughtError) (st : σ) : CatchOutcome σ :=
  ⟨renderEffectLog e, false, st⟩

/-- The guard around `renderTaskRef.current.cancel()` (lines 77-85):
`try { ... } catch { /* Ignore cancellation errors */ }`. -/
def cancelCallCatch {σ : Type} (_e : CaughtError) (st : σ) : CatchOutcome σ :=
  ⟨none, false, st⟩

/-! ### Page-level thumb theming (`CustomScrollbar`, `part_002`, lines 43-76
and 144-158) -/

/-- One of the page sections matched by
`querySelectorAll(".grid-section, .index-section, .resume-section")`:
its viewport-relative vertical span and its class list. -/
structure PageSection where
  top : ℚ
  bottom : ℚ
  classes : List String

/-- Embeds `section.classList.contains("grid-section")`. -/
def isSectionLight (s : PageSection) : Bool :=
  s.classes.contains "grid-section"

/-- Pixel overlap between the thumb's vertical span and a section's span:
`Math.max(0, Math.min(thumbBottom, rect.bottom) - Math.max(thumbTop, rect.top))`. -/
def sectionOverlap (thumbTopV thumbBottomV : ℚ) (s : PageSection) : ℚ :=
  max 0 (min thumbBottomV s.bottom - max thumbTopV s.top)

/-- Total overlap accumulated over light-tagged sections. -/
def lightPixels (thumbTopV thumbBottomV : ℚ) (sections : List PageSection) : ℚ :=
  ((sections.filter (fun s => isSectionLight s)).map (sectionOverlap thumbTopV thumbBottomV)).sum

/-- Total overlap accumulated over dark-tagged sections. -/
def darkPixels (thumbTopV thumbBottomV : ℚ) (sections : List PageSection) : ℚ :=
  ((sections.filter (fun s => !(isSectionLight s))).map (sectionOverlap thumbTopV thumbBottomV)).sum

/-- Embeds `thumbTopInViewport = thumbTop + (isEdge ? 5 : 2)` (lines 49-50). -/
def thumbTopInViewport (isEdge : Bool) (thumbTop : ℚ) : ℚ :=
  thumbTop + (if isEdge then 5 else 2)

/-- Embeds `thumbBottomInViewport = thumbTopInViewport + thumbPx` (line 51). -/
def thumbBottomInViewport (isEdge : Bool) (thumbTop thumbPx : ℚ) : ℚ :=
  thumbTopInViewport isEdge thumbTop + thumbPx

/-- The `isLight` state after one `updateScrollbar` run (lines 72-76):
`if (totalOverlap > 0) setIsLight(darkPixels / totalOverlap > 0.5)`,
otherwise the previous value is retained. -/
def newIsLight (prev : Bool) (thumbTopV thumbBottomV : ℚ)
    (sections : List PageSection) : Bool :=
  let dark := darkPixels thumbTopV thumbBottomV sections
  let light := lightPixels thumbTopV thumbBottomV sections
  let totalOverlap := dark + light
  if totalOverlap > 0 then decide (dark / totalOverlap > 1/2) else prev

/-- The rendered thumb variant (line 152):
`isLight ? "on-light" : "on-dark"`. -/
def thumbVariantClass (isLight : Bool) : String :=
  if isLight then "on-light" else "on-dark"

/-! ### Render session lifecycle (`PdfViewer.tsx` lines 49-219)

The render effect is modelled as an event system.  A `RenderSession` is one
invocation of `renderPdf`; its `phase` is the `await` point it is suspended
at (`started`: scheduled, not yet run; `loading`: awaiting `getDocument`;
`gettingPage`: awaiting `getPage(1)`; `rendering`: awaiting
`renderTask.promise`).  Sessions are identified by their index in
`sessions` (in order of invocation).  The events are: `rerun` — the effect
re-runs on a change of url/zoom (cleanup sets the old closure's
`isCancelled`, cancels `renderTaskRef`, and the new effect schedules a new
invocation); `resize` — the same effect's resize listener invokes
`renderPdf` again; `step i` — the event loop resumes invocation `i` and
runs it up to its next `await` (or to completion).  Code between two await
points is a single step, matching single-threaded JavaScript. -/

/-- The phase (suspension point) of one `renderPdf` invocation. -/
inductive RenderPhase
| started
| loading
| gettingPage
| rendering
| done
| dead
deriving DecidableEq, Repr

/-- One `renderPdf` invocation: the effect generation whose `isCancelled`
flag it reads, its phase, and whether its render task has been cancelled. -/
structure RenderSession where
  gen : ℕ
  phase : RenderPhase
  taskCancelled : Bool
deriving DecidableEq, Repr

/-- The viewer's shared mutable state, plus observation fields:
`canvasWriter` is the last invocation to write the canvas surface (resize,
white fill, start of rasterization), `presented` the last invocation whose
rasterization completed onto the canvas. -/
structure ViewerState where
  sessions : List RenderSession
  curGen : ℕ
  cancelledGens : List ℕ
  renderTask : Option ℕ
  pdfLoaded : Bool
  canvasWriter : Option ℕ
  presented : Option ℕ
deriving DecidableEq, Repr

/-- Embeds `renderTaskRef.current.cancel(); renderTaskRef.current = null` —
cancels the in-flight render task, if any, marking its owner. -/
def cancelRenderTask (st : ViewerState) : ViewerState :=
  match st.renderTask with
  | none => st
  | some i =>
    match st.sessions.get? i with
    | none => { st with renderTask := none }
    | some t =>
      { st with
        renderTask := none
        sessions := st.sessions.set i { t with taskCancelled := true } }

/-- Schedule a new `renderPdf` invocation for the current effect. -/
def spawnSession (st : ViewerState) : ViewerState :=
  { st with sessions := st.sessions ++ [⟨st.curGen, .started, false⟩] }

/-- Effect re-run on a dependency change (url, zoom): the old effect's
cleanup sets `isCancelled = true` and cancels `renderTaskRef` (lines
198-218), then the new effect schedules `renderPdf` (line 189). -/
def effectRerun (st : ViewerState) : ViewerState :=
  spawnSession
    { cancelRenderTask st with
      cancelledGens := st.curGen :: (cancelRenderTask st).cancelledGens
      curGen := st.curGen + 1 }

/-- The resize listener (lines 191-195): `if (!isCancelled) renderPdf()` —
a fresh invocation sharing the current effect's `isCancelled` flag. -/
def resizeInvoke (st : ViewerState) : ViewerState :=
  spawnSession st

/-- Replace the session at index `i`. -/
def setSessionAt (st : ViewerState) (i : ℕ) (s : RenderSession) : ViewerState :=
  { st with sessions := st.sessions.set i s }

/-- Resume invocation `i` and run it to its next suspension point,
following `renderPdf` (lines 62-186). -/
def stepSession (st : ViewerState) (i : ℕ) : ViewerState :=
  match st.sessions.get? i with
  | none => st
  | some s =>
    match s.phase with
    | .started =>
      -- lines 63-100: isCancelled check, cancel previous task, start load
      if s.gen ∈ st.cancelledGens then setSessionAt st i { s with phase := .dead }
      else if st.pdfLoaded then
        setSessionAt (cancelRenderTask st) i { s with phase := .gettingPage }
      else setSessionAt (cancelRenderTask st) i { s with phase := .loading }
    | .loading =>
      -- lines 93-104: load resolved; if cancelled, destroy and abort
      if s.gen ∈ st.cancelledGens then setSessionAt st i { s with phase := .dead }
      else setSessionAt { st with pdfLoaded := true } i { s with phase := .gettingPage }
    | .gettingPage =>
      -- lines 105-158: page resolved; synchronous canvas sizing, white
      -- fill, and start of rasterization (all one event-loop segment)
      if s.gen ∈ st.cancelledGens then setSessionAt st i { s with phase := .dead }
      else
        setSessionAt { st with canvasWriter := some i, renderTask := some i } i
          { s with phase := .rendering }
    | .rendering =>
      -- lines 158-174: render promise settles; a cancelled task rejects
      -- with RenderingCancelledException (swallowed by the catch block)
      if s.taskCancelled then setSessionAt st i { s with phase := .dead }
      else if s.gen ∈ st.cancelledGens then
        setSessionAt { st with presented := some i, renderTask := none } i
          { s with phase := .dead }
      else
        setSessionAt { st with presented := some i, renderTask := none } i
          { s with phase := .done }
    | .done => st
    | .dead => st

/-- The scheduler's events. -/
inductive ViewerEv
| rerun
| resize
| step (i : ℕ)
deriving DecidableEq, Repr

/-- One scheduler event. -/
def viewerStep (st : ViewerState) : ViewerEv → ViewerState
| .rerun => effectRerun st
| .resize => resizeInvoke st
| .step i => stepSession st i

/-- The state after the effect first runs: one scheduled invocation. -/
def viewerInit : ViewerState :=
  spawnSession ⟨[], 0, [], none, false, none, none⟩

/-- Run a trace of events from the initial state. -/
def viewerRun (evs : List ViewerEv) : ViewerState :=
  evs.foldl viewerStep viewerInit

/-- An invocation is active when it has neither terminated nor been
superseded: it is not done/dead and its effect generation is not
cancelled. -/
def isActiveSession (st : ViewerState) (s : RenderSession) : Bool :=
  s.phase != .done && s.phase != .dead && !(st.cancelledGens.contains s.gen)

/-- Number of simultaneously active render sessions. -/
def activeCount (st : ViewerState) : ℕ :=
  (st.sessions.filter (isActiveSession st)).length

/-- Reachability invariant of the event system for traces without resize
reinvocations: session generations never exceed the current one; a session
of a non-cancelled generation belongs to the current generation and is
unique; an uncancelled rendering session owns the in-flight render task and
conversely; a rendering session of a cancelled generation has had its task
cancelled; and only rendering or dead sessions carry a cancelled-task
flag. -/
structure ViewerInv (st : ViewerState) : Prop where
  genLe : ∀ i s, st.sessions.get? i = some s → s.gen ≤ st.curGen
  live : ∀ i s, st.sessions.get? i = some s → s.gen ∉ st.cancelledGens → s.gen = st.curGen
  uniq : ∀ i j s t, st.sessions.get? i = some s → st.sessions.get? j = some t →
    s.gen ∉ st.cancelledGens → t.gen ∉ st.cancelledGens → i = j
  owner : ∀ i s, st.sessions.get? i = some s → s.phase = .rendering →
    s.taskCancelled = false → st.renderTask = some i
  cancRend : ∀ i s, st.sessions.get? i = some s → s.gen ∈ st.cancelledGens →
    s.phase = .rendering → s.taskCancelled = true
  task : ∀ k, st.renderTask = some k → ∃ t, st.sessions.get? k = some t ∧
    t.phase = .rendering ∧ t.taskCancelled = false
  flagged : ∀ i s, st.sessions.get? i = some s → s.taskCancelled = true →
    s.phase = .rendering ∨ s.phase = .dead

/-! ## Theorems -/

/-- C1: during a drag session on either custom scrollbar thumb, a pointer
movement of `deltaY` sets the scroll offset to
`startScrollOffset + (deltaY / (visibleExtent - thumbLength)) * (contentExtent - visibleExtent)`;
the mapping is linear in `deltaY`, and dragging over the full thumb travel
(0 to `visibleExtent - thumbLength`) moves the scroll offset over exactly
its full range (0 to `contentExtent - visibleExtent`), for both the
viewer's internal scrollbar and the page-level scrollbar. -/
theorem C1_drag_mapping (start deltaY d1 d2 ve ce tl : ℚ)
    (_hce : ve < ce) (htl : tl < ve) :
    pdfDragScrollTop start deltaY ve ce tl
        = start + (deltaY / (ve - tl)) * (ce - ve) ∧
    pageDragScrollTop start deltaY ve ce tl
        = start + (deltaY / (ve - tl)) * (ce - ve) ∧
    pdfDragScrollTop start (d1 + d2) ve ce tl - start
        = (pdfDragScrollTop start d1 ve ce tl - start)
          + (pdfDragScrollTop start d2 ve ce tl - start) ∧
    pdfDragScrollTop 0 0 ve ce tl = 0 ∧
    pdfDragScrollTop 0 (ve - tl) ve ce tl = ce - ve ∧
    pageDragScrollTop 0 0 ve ce tl = 0 ∧
    pageDragScrollTop 0 (ve - tl) ve ce tl = ce - ve := by
  have h : ve - tl ≠ 0 := ne_of_gt (by linarith : (0 : ℚ) < ve - tl)
  refine ⟨rfl, rfl, ?_, ?_, ?_, ?_, ?_⟩ <;>
    simp only [pdfDragScrollTop, pageDragScrollTop] <;>
    field_simp <;> ring

/-- Witness for C1 at `visibleExtent = 500`, `contentExtent = 1000`,
`thumbLength = 50`: a full-travel drag of 450 moves the offset to 500. -/
theorem C1_drag_mapping_witness :
    pdfDragScrollTop 0 (500 - 50) 500 1000 50 = 1000 - 500 :=
  (C1_drag_mapping 0 0 0 0 500 1000 50 (by norm_num) (by norm_num)).2.2.2.2.1

/-- C2 as stated is false for the page-level scrollbar: the applied formula
scales by the track length `visibleExtent - 4` (non-Edge), not by
`visibleExtent`.  At `contentExtent = 1000`, `visibleExtent = 500` the
computed thumb length is 248, while the claimed formula gives 250. -/
theorem C2_counterexample :
    pageThumbHeight false 1000 500 ≠ max (((500 : ℚ) / 1000) * 500) 40 := by
  have h1 : pageThumbHeight false 1000 500 = 248 := by
    rw [pageThumbHeight, pageTrackHeight]
    norm_num
  have h2 : max (((500 : ℚ) / 1000) * 500) 40 = 250 := by
    norm_num
  rw [h1, h2]
  norm_num

/-- C2 amended: the viewer's internal scrollbar satisfies the claimed
formulas exactly (length floored at 40, offset 0 without overflow, thumb
flush at maximum scroll offset); the page-level scrollbar satisfies the
same formulas with the track length `visibleExtent - trackPadding`
(4, or 10 on Edge) in place of `visibleExtent` as the scaling length. -/
theorem C2_thumb_geometry (ce ve so : ℚ) (_hce : 0 < ce) :
    (pdfThumbHeight ce ve = max ((ve / ce) * ve) 40 ∧
     40 ≤ pdfThumbHeight ce ve ∧
     (ce ≤ ve → pdfThumbTop ce ve so = 0) ∧
     (ve < ce → pdfThumbTop ce ve so = (so / (ce - ve)) * (ve - pdfThumbHeight ce ve)) ∧
     (ve < ce → pdfThumbTop ce ve (ce - ve) = ve - pdfThumbHeight ce ve)) ∧
    ∀ isEdge : Bool,
      pageThumbHeight isEdge ce ve = max ((ve / ce) * pageTrackHeight isEdge ve) 40 ∧
      40 ≤ pageThumbHeight isEdge ce ve ∧
      (ce ≤ ve → pageThumbTop isEdge ce ve so = 0) ∧
      (ve < ce → pageThumbTop isEdge ce ve so
          = (so / (ce - ve)) * (pageTrackHeight isEdge ve - pageThumbHeight isEdge ce ve)) ∧
      (ve < ce → pageThumbTop isEdge ce ve (ce - ve)
          = pageTrackHeight isEdge ve - pageThumbHeight isEdge ce ve) := by
  have flush : ∀ x y : ℚ, ve < ce → (if ce - ve > 0 then (ce - ve) / (ce - ve) else 0) * x = x := by
    intro x y hlt
    rw [if_pos (by linarith), div_self (by linarith), one_mul]
  refine ⟨⟨rfl, le_max_right _ _, ?_, ?_, ?_⟩, fun isEdge => ⟨rfl, le_max_right _ _, ?_, ?_, ?_⟩⟩
  · intro hle
    simp only [pdfThumbTop]
    rw [if_neg (by linarith), zero_mul]
  · intro hlt
    simp only [pdfThumbTop]
    rw [if_pos (by linarith)]
  · intro hlt
    simp only [pdfThumbTop]
    exact flush _ 0 hlt
  · intro hle
    simp only [pageThumbTop]
    rw [if_neg (by linarith), zero_mul]
  · intro hlt
    simp only [pageThumbTop]
    rw [if_pos (by linarith)]
  · intro hlt
    simp only [pageThumbTop]
    exact flush _ 0 hlt

/-- Witness for C2 at `contentExtent = 1000`, `visibleExtent = 250`,
maximum scroll offset 750: the viewer thumb sits flush at
`visibleExtent - thumbLength`. -/
theorem C2_thumb_geometry_witness :
    pdfThumbTop 1000 250 (1000 - 250) = 250 - pdfThumbHeight 1000 250 :=
  ((C2_thumb_geometry 1000 250 750 (by norm_num)).1.2.2.2.2) (by norm_num)

/-- Every zoom step keeps a value of `zoomValues` inside `zoomValues`. -/
theorem zoomStep_mem (op : ZoomOp) (z : ℚ) (hz : z ∈ zoomValues) :
    zoomStep op z ∈ zoomValues := by
  fin_cases hz <;> cases op <;>
    simp [zoomStep, handleZoomIn, handleZoomOut, handleReset, zoomValues,
      min_def, max_def] <;> norm_num

/-- Any zoom-action sequence starting in `zoomValues` stays in it. -/
theorem zoomApply_mem (ops : List ZoomOp) (z : ℚ) (hz : z ∈ zoomValues) :
    zoomApply ops z ∈ zoomValues := by
  induction ops generalizing z with
  | nil => simpa [zoomApply] using hz
  | cons op rest ih =>
    simpa [zoomApply, List.foldl_cons] using ih (zoomStep op z) (zoomStep_mem op z hz)

/-- C4: starting from zoom 1, every finite sequence of zoomIn / zoomOut /
reset keeps the zoom factor in {1, 1.25, 1.5, 1.75, 2}; zoomIn adds
exactly 0.25 clamped to at most 2, zoomOut subtracts exactly 0.25 clamped
to at least 1, reset sets the factor to exactly 1. -/
theorem C4_zoom_invariant :
    (∀ ops : List ZoomOp, zoomApply ops 1 ∈ zoomValues) ∧
    (∀ z : ℚ, z ∈ zoomValues → handleZoomIn z ∈ zoomValues ∧ handleZoomOut z ∈ zoomValues) ∧
    (∀ z : ℚ, handleReset z = 1) ∧
    (∀ z : ℚ, z + 1/4 ≤ 2 → handleZoomIn z = z + 1/4) ∧
    (∀ z : ℚ, 2 ≤ z + 1/4 → handleZoomIn z = 2) ∧
    (∀ z : ℚ, 1 ≤ z - 1/4 → handleZoomOut z = z - 1/4) ∧
    (∀ z : ℚ, z - 1/4 ≤ 1 → handleZoomOut z = 1) ∧
    (∀ z : ℚ, 1 ≤ z → z ≤ 2 →
      1 ≤ handleZoomIn z ∧ handleZoomIn z ≤ 2 ∧
      1 ≤ handleZoomOut z ∧ handleZoomOut z ≤ 2) := by
  refine ⟨fun ops => zoomApply_mem ops 1 (by simp [zoomValues]),
    fun z hz => ⟨zoomStep_mem .zin z hz, zoomStep_mem .zout z hz⟩,
    fun z => rfl,
    fun z h => min_eq_left h,
    fun z h => min_eq_right h,
    fun z h => max_eq_left h,
    fun z h => max_eq_right h,
    fun z h1 h2 => ⟨le_min (by linarith) (by norm_num), min_le_right _ _,
      le_max_right _ _, max_le (by linarith) (by norm_num)⟩⟩

/-- Witness for C4: two zoom-ins and a zoom-out land on 1.25, and zoomIn
clamps at 2. -/
theorem C4_zoom_invariant_witness :
    zoomApply [ZoomOp.zin, ZoomOp.zin, ZoomOp.zout] 1 ∈ zoomValues ∧
    handleZoomIn 2 = 2 :=
  ⟨C4_zoom_invariant.1 _, C4_zoom_invariant.2.2.2.2.1 2 (by norm_num)⟩

/-- Dropping a matching shift after adding it is the identity on char codes
below 2^16. -/
theorem decodeFrom_encodeFrom (s : List ℕ) :
    ∀ i, (∀ c ∈ s, c < 65536) → decodeFrom i (encodeFrom i s) = s := by
  induction s with
  | nil => intro i _; rfl
  | cons c rest ih =>
    intro i h
    have hc : c < 65536 := h c (List.mem_cons_self c rest)
    simp only [encodeFrom, decodeFrom, List.cons.injEq]
    exact ⟨by omega, ih (i + 1) (fun x hx => h x (List.mem_cons_of_mem _ hx))⟩

/-- C8: `decode` inverts `encode` on every string over the printable ASCII
range, for the key "vK9xQ2m" assembled from the scattered literals. -/
theorem C8_roundtrip (s : List ℕ) (h : ∀ c ∈ s, 32 ≤ c ∧ c ≤ 126) :
    decode (encode s) = s :=
  decodeFrom_encodeFrom s 0 (fun c hc => by have := h c hc; omega)

/-- Witness for C8 on the char codes of "j-z-w" (the github sample). -/
theorem C8_roundtrip_witness :
    decode (encode [106, 45, 122, 45, 119]) = [106, 45, 122, 45, 119] :=
  C8_roundtrip _ (by decide)

/-- The worker `decodeFrom` preserves length. -/
theorem decodeFrom_length (codes : List ℤ) :
    ∀ i, (decodeFrom i codes).length = codes.length := by
  induction codes with
  | nil => intro i; rfl
  | cons c rest ih => intro i; simp [decodeFrom, ih]

/-- Elementwise description of `decodeFrom`. -/
theorem decodeFrom_getD (codes : List ℤ) :
    ∀ j i, i < codes.length →
      ((decodeFrom j codes).getD i 0 : ℤ) = (codes.getD i 0 - (shiftAt (j + i) : ℤ)) % 65536 := by
  induction codes with
  | nil => intro j i h; simp at h
  | cons c rest ih =>
    intro j i h
    cases i with
    | zero =>
      simp only [decodeFrom, List.getD_cons_zero, Nat.add_zero]
      omega
    | succ n =>
      have heq : j + (n + 1) = (j + 1) + n := by omega
      simp only [decodeFrom, List.getD_cons_succ, heq]
      exact ih (j + 1) n (by simpa using h)

/-- The per-index shift is between 1 and 13. -/
theorem shiftAt_bounds (i : ℕ) : 1 ≤ shiftAt i ∧ shiftAt i ≤ 13 := by
  unfold shiftAt
  have := Nat.mod_lt ((_k.data.getD (i % _k.length) 'A').toNat) (show 0 < 13 by norm_num)
  omega

/-- The per-index shift depends only on the index mod 7. -/
theorem shiftAt_period (i : ℕ) : shiftAt i = shiftAt (i % 7) := by
  have hk : _k.length = 7 := rfl
  have h2 : i % 7 % 7 = i % 7 := by omega
  unfold shiftAt
  rw [hk, h2]

/-- C10 as stated is false: on input `[0]` the decoded char code is
`(0 - 2) mod 2^16 = 65534`, not `0 - 2`. -/
theorem C10_counterexample :
    ((decode [0]).getD 0 0 : ℤ) ≠ (0 : ℤ) - (shiftAt 0 : ℤ) := by
  decide

/-- C10 amended: `decode` is total and deterministic, preserves length, and
the char code at index `i` is `(codes[i] - shift) mod 2^16` (which equals
`codes[i] - shift` whenever that difference lies in `[0, 65535]`), where
the shift depends only on `i mod 7` and always lies in `[1, 13]`. -/
theorem C10_decode_total (codes : List ℤ) :
    (decode codes).length = codes.length ∧
    (∀ i, i < codes.length →
      ((decode codes).getD i 0 : ℤ) = (codes.getD i 0 - (shiftAt i : ℤ)) % 65536) ∧
    (∀ i, i < codes.length → 0 - (shiftAt i : ℤ) ≤ 65535 →
      (0 : ℤ) ≤ codes.getD i 0 - (shiftAt i : ℤ) → codes.getD i 0 - (shiftAt i : ℤ) ≤ 65535 →
      ((decode codes).getD i 0 : ℤ) = codes.getD i 0 - (shiftAt i : ℤ)) ∧
    (∀ i : ℕ, 1 ≤ shiftAt i ∧ shiftAt i ≤ 13 ∧ shiftAt i = shiftAt (i % 7)) := by
  refine ⟨decodeFrom_length codes 0, fun i hi => ?_, fun i hi _ hlo hhi => ?_,
    fun i => ⟨(shiftAt_bounds i).1, (shiftAt_bounds i).2, shiftAt_period i⟩⟩
  · have := decodeFrom_getD codes 0 i hi
    simpa using this
  · have h1 := decodeFrom_getD codes 0 i hi
    simp only [Nat.zero_add] at h1
    rw [decode, h1]
    omega

/-- Witness for C10 amended at input `[5]`: char code `(5 - 2) mod 2^16`. -/
theorem C10_decode_total_witness :
    ((decode [5]).getD 0 0 : ℤ) = ((5 : ℤ) - (shiftAt 0 : ℤ)) % 65536 :=
  (C10_decode_total [5]).2.1 0 (by decide)

/-- C5: for a wheel event targeting the embedded viewer's scroll area, both
revisions of the handler behave the same way: when the container's zoom
attribute exceeds 1, the handler calls `preventDefault` and
`stopPropagation`, adds `deltaY` exactly to the internal scroll offset, and
performs no page navigation; when the zoom attribute is exactly 1, the
event is handled identically to one outside the viewer — the internal
offset is untouched, propagation is not stopped, and the page-level section
navigation logic runs. -/
theorem C5_wheel_routing (st1 : PageNavState1) (st2 : PageNavState2) (e : WheelEvent)
    (hin : e.insidePdfScrollArea = true) :
    (∀ z : ℚ, e.zoomAttr = some z → 1 < z →
      handleWheel1 st1 e = ⟨true, true, st1.pdfScrollTop + e.deltaY, none⟩ ∧
      handleWheel2 st2 e = ⟨true, true, st2.pdfScrollTop + e.deltaY, none⟩) ∧
    (e.zoomAttr = some 1 →
      handleWheel1 st1 e = handleWheel1 st1 { e with insidePdfScrollArea := false } ∧
      handleWheel2 st2 e = handleWheel2 st2 { e with insidePdfScrollArea := false } ∧
      (handleWheel1 st1 e).pdfScrollTop = st1.pdfScrollTop ∧
      (handleWheel2 st2 e).pdfScrollTop = st2.pdfScrollTop ∧
      (handleWheel1 st1 e).stopPropagation = false ∧
      (handleWheel2 st2 e).stopPropagation = false ∧
      (handleWheel1 st1 e).preventDefault = true ∧
      (handleWheel2 st2 e).preventDefault = true) := by
  constructor
  · intro z hz h1
    have hr : pdfRouted e = true := by
      simp [pdfRouted, hin, hz, h1]
    constructor
    · simp [handleWheel1, hr]
    · simp [handleWheel2, hr]
  · intro hz
    have hr : pdfRouted e = false := by
      simp [pdfRouted, hz]
    have hr2 : pdfRouted { e with insidePdfScrollArea := false } = false := by
      simp [pdfRouted]
    refine ⟨?_, ?_, ?_, ?_, ?_, ?_, ?_, ?_⟩ <;>
      simp [handleWheel1, handleWheel2, hr, hr2]

/-- Witness for C5: a concrete zoomed-in event scrolls the viewer by the
wheel delta, and a zoom-1 event leaves propagation unstopped. -/
theorem C5_wheel_routing_witness :
    handleWheel1 ⟨0, false, 0, 3⟩ ⟨100, true, some (3/2)⟩
      = ⟨true, true, 0 + 100, none⟩ ∧
    (handleWheel2 ⟨0, false, 0, 0, 100, []⟩ ⟨100, true, some 1⟩).stopPropagation = false :=
  ⟨((C5_wheel_routing ⟨0, false, 0, 3⟩ ⟨0, false, 0, 0, 100, []⟩ ⟨100, true, some (3/2)⟩
      rfl).1 (3/2) rfl (by norm_num)).1,
   ((C5_wheel_routing ⟨0, false, 0, 3⟩ ⟨0, false, 0, 0, 100, []⟩ ⟨100, true, some 1⟩
      rfl).2 rfl).2.2.2.2.2.1⟩

/-- C6 as stated is false in its consequence: the floor in
`canvas.width = Math.floor(renderViewport.width)` may drop the internal
resolution strictly below 1.5 times the presented size.  With container
height 100, page 1×100, zoom 1, devicePixelRatio 1, the internal width is
`Math.floor(1.5) = 1` while 1.5 × the presented width is 1.5. -/
theorem C6_counterexample :
    ¬ (3/2 * canvasCssWidth 100 ⟨1, 100⟩ 1 ≤ (canvasPixelWidth 100 ⟨1, 100⟩ 1 1 : ℚ)) := by
  have h1 : canvasCssWidth 100 ⟨1, 100⟩ 1 = 1 := by
    norm_num [canvasCssWidth, viewportAt, displayScale, baseScale]
  have h2 : canvasPixelWidth 100 ⟨1, 100⟩ 1 1 = 1 := by
    have h : (viewportAt ⟨1, 100⟩ (renderScale 100 ⟨1, 100⟩ 1 1)).width = 3/2 := by
      norm_num [viewportAt, renderScale, displayScale, baseScale, outputScale,
        deviceRatio, max_def]
    rw [canvasPixelWidth, h]
    norm_num [Int.floor_eq_iff]
  rw [h1, h2]
  norm_num

/-- C6 amended: the canvas's internal pixel dimensions are the floors of
the page viewport dimensions at `renderScale = displayScale × outputScale`
with `outputScale = max(1.5, devicePixelRatio)`, the presented CSS size is
the page viewport at `displayScale = (containerHeight / unscaledPageHeight) × zoom`,
and the internal resolution exceeds 1.5 times the presented size minus one
pixel in each dimension (exact 1.5× can be lost only to the floor). -/
theorem C6_render_resolution (ch uw uh zoom dpr : ℚ)
    (huh : 0 < uh) (huw : 0 ≤ uw) (hch : 0 ≤ ch) (hz : 0 ≤ zoom) :
    (canvasPixelWidth ch ⟨uw, uh⟩ zoom dpr
        = Int.floor (viewportAt ⟨uw, uh⟩ (renderScale ch ⟨uw, uh⟩ zoom dpr)).width ∧
     canvasPixelHeight ch ⟨uw, uh⟩ zoom dpr
        = Int.floor (viewportAt ⟨uw, uh⟩ (renderScale ch ⟨uw, uh⟩ zoom dpr)).height ∧
     canvasCssWidth ch ⟨uw, uh⟩ zoom = uw * (ch / uh * zoom) ∧
     canvasCssHeight ch ⟨uw, uh⟩ zoom = uh * (ch / uh * zoom) ∧
     renderScale ch ⟨uw, uh⟩ zoom dpr
        = displayScale ch ⟨uw, uh⟩ zoom * outputScale dpr ∧
     3/2 ≤ outputScale dpr) ∧
    3/2 * canvasCssWidth ch ⟨uw, uh⟩ zoom - 1 < (canvasPixelWidth ch ⟨uw, uh⟩ zoom dpr : ℚ) ∧
    3/2 * canvasCssHeight ch ⟨uw, uh⟩ zoom - 1 < (canvasPixelHeight ch ⟨uw, uh⟩ zoom dpr : ℚ) := by
  have hos : 3/2 ≤ outputScale dpr := le_max_left _ _
  have hcssw : canvasCssWidth ch ⟨uw, uh⟩ zoom = uw * (ch / uh * zoom) := by
    simp [canvasCssWidth, viewportAt, displayScale, baseScale]
  have hcssh : canvasCssHeight ch ⟨uw, uh⟩ zoom = uh * (ch / uh * zoom) := by
    simp [canvasCssHeight, viewportAt, displayScale, baseScale]
  have hwnn : 0 ≤ canvasCssWidth ch ⟨uw, uh⟩ zoom := by
    rw [hcssw]; positivity
  have hhnn : 0 ≤ canvasCssHeight ch ⟨uw, uh⟩ zoom := by
    rw [hcssh]; positivity
  have hratw : (viewportAt ⟨uw, uh⟩ (renderScale ch ⟨uw, uh⟩ zoom dpr)).width
      = canvasCssWidth ch ⟨uw, uh⟩ zoom * outputScale dpr := by
    simp [viewportAt, renderScale, displayScale, baseScale, canvasCssWidth]
    ring
  have hrath : (viewportAt ⟨uw, uh⟩ (renderScale ch ⟨uw, uh⟩ zoom dpr)).height
      = canvasCssHeight ch ⟨uw, uh⟩ zoom * outputScale dpr := by
    simp [viewportAt, renderScale, displayScale, baseScale, canvasCssHeight]
    ring
  refine ⟨⟨rfl, rfl, hcssw, hcssh, rfl, hos⟩, ?_, ?_⟩
  · have hfl : (viewportAt ⟨uw, uh⟩ (renderScale ch ⟨uw, uh⟩ zoom dpr)).width - 1
        < (canvasPixelWidth ch ⟨uw, uh⟩ zoom dpr : ℚ) := Int.sub_one_lt_floor _
    have hmul : 3/2 * canvasCssWidth ch ⟨uw, uh⟩ zoom
        ≤ canvasCssWidth ch ⟨uw, uh⟩ zoom * outputScale dpr := by
      rw [mul_comm (3/2 : ℚ)]
      exact mul_le_mul_of_nonneg_left hos hwnn
    rw [hratw] at hfl
    linarith
  · have hfl : (viewportAt ⟨uw, uh⟩ (renderScale ch ⟨uw, uh⟩ zoom dpr)).height - 1
        < (canvasPixelHeight ch ⟨uw, uh⟩ zoom dpr : ℚ) := Int.sub_one_lt_floor _
    have hmul : 3/2 * canvasCssHeight ch ⟨uw, uh⟩ zoom
        ≤ canvasCssHeight ch ⟨uw, uh⟩ zoom * outputScale dpr := by
      rw [mul_comm (3/2 : ℚ)]
      exact mul_le_mul_of_nonneg_left hos hhnn
    rw [hrath] at hfl
    linarith

/-- Witness for C6 amended at container 100, page 50×100, zoom 1, dpr 1. -/
theorem C6_render_resolution_witness :
    3/2 * canvasCssWidth 100 ⟨50, 100⟩ 1 - 1 < (canvasPixelWidth 100 ⟨50, 100⟩ 1 1 : ℚ) :=
  (C6_render_resolution 100 50 100 1 1 (by norm_num) (by norm_num) (by norm_num)
    (by norm_num)).2.1

/-- C7: the render effect's catch never rethrows and never touches viewer
state; a `RenderingCancelledException` is discarded without a log, every
other name-bearing error (the load/render errors of the rasterization
library) is logged and swallowed; and the guard around the `cancel()` call
discards every error silently. -/
theorem C7_error_swallowing {σ : Type} (st : σ) (e : CaughtError) :
    (renderEffectCatch e st).rethrown = false ∧
    (renderEffectCatch e st).state = st ∧
    (renderEffectCatch (.named "RenderingCancelledException") st).log = none ∧
    (∀ n : String, n ≠ "RenderingCancelledException" →
      (renderEffectCatch (.named n) st).log = some "Error rendering PDF:") ∧
    (∀ ec : CaughtError,
      (cancelCallCatch ec st).log = none ∧
      (cancelCallCatch ec st).rethrown = false ∧
      (cancelCallCatch ec st).state = st) := by
  refine ⟨rfl, rfl, by simp [renderEffectCatch, renderEffectLog],
    fun n hn => by simp [renderEffectCatch, renderEffectLog, hn],
    fun ec => ⟨rfl, rfl, rfl⟩⟩

/-- Witness for C7: a non-cancellation error is logged. -/
theorem C7_error_swallowing_witness :
    (renderEffectCatch (CaughtError.named "UnknownErrorException") (0 : ℕ)).log
      = some "Error rendering PDF:" :=
  (C7_error_swallowing (0 : ℕ) (.named "UnknownErrorException")).2.2.2.1 _ (by decide)

/-- C9 as stated ("more than 50%") is false at an exact 50/50 split: with a
light section and a dark section each overlapping the thumb by 10 pixels,
the code chooses the dark-background style although the light share is not
more than 50%. -/
theorem C9_counterexample :
    ¬ ((thumbVariantClass (newIsLight true 0 20
          [⟨0, 10, ["grid-section"]⟩, ⟨10, 20, ["index-section"]⟩]) = "on-dark") ↔
        darkPixels 0 20 [⟨0, 10, ["grid-section"]⟩, ⟨10, 20, ["index-section"]⟩]
          < lightPixels 0 20 [⟨0, 10, ["grid-section"]⟩, ⟨10, 20, ["index-section"]⟩]) := by
  have hl : lightPixels 0 20 [⟨0, 10, ["grid-section"]⟩, ⟨10, 20, ["index-section"]⟩]
      = 10 := by
    simp [lightPixels, isSectionLight, sectionOverlap, List.filter] <;> norm_num
  have hd : darkPixels 0 20 [⟨0, 10, ["grid-section"]⟩, ⟨10, 20, ["index-section"]⟩]
      = 10 := by
    simp [darkPixels, isSectionLight, sectionOverlap, List.filter] <;> norm_num
  have hv : newIsLight true 0 20
      [⟨0, 10, ["grid-section"]⟩, ⟨10, 20, ["index-section"]⟩] = false := by
    rw [newIsLight]
    rw [hl, hd]
    norm_num
  intro hiff
  rw [hl, hd] at hiff
  have := hiff.mp (by rw [hv]; rfl)
  exact absurd this (by norm_num)

/-- C9 amended: on every sample with positive total overlap, the style for
dark backgrounds (`on-dark`) is chosen exactly when at least 50% of the
thumb's total overlapping length lies over light-tagged sections (an exact
50/50 split chooses `on-dark`); the light variant is chosen exactly when
the dark share strictly dominates.  Only `grid-section`-tagged sections
count as light.  When the total overlap is zero the previous choice is
retained. -/
theorem C9_thumb_theming (prev : Bool) (tT tB : ℚ) (sections : List PageSection)
    (h : 0 < darkPixels tT tB sections + lightPixels tT tB sections) :
    (thumbVariantClass (newIsLight prev tT tB sections) = "on-dark" ↔
      darkPixels tT tB sections ≤ lightPixels tT tB sections) ∧
    (thumbVariantClass (newIsLight prev tT tB sections) = "on-light" ↔
      lightPixels tT tB sections < darkPixels tT tB sections) := by
  set d := darkPixels tT tB sections with hd
  set l := lightPixels tT tB sections with hl
  have hcond : newIsLight prev tT tB sections = decide (1/2 < d / (d + l)) := by
    rw [newIsLight]
    rw [← hd, ← hl, if_pos h]
  have key : (1/2 < d / (d + l)) ↔ l < d := by
    rw [lt_div_iff h]
    constructor <;> intro <;> linarith
  have t1 : thumbVariantClass true = "on-light" := rfl
  have t2 : thumbVariantClass false = "on-dark" := rfl
  have hne : ("on-light" : String) ≠ "on-dark" := by decide
  by_cases hc : l < d
  · have hv : newIsLight prev tT tB sections = true := by
      rw [hcond, decide_eq_true_eq]
      exact key.mpr hc
    rw [hv, t1]
    exact ⟨⟨fun hs => absurd hs hne, fun hle => absurd hc (not_lt.mpr hle)⟩,
      ⟨fun _ => hc, fun _ => rfl⟩⟩
  · have hv : newIsLight prev tT tB sections = false := by
      rw [hcond, decide_eq_false_iff_not, key]
      exact hc
    rw [hv, t2]
    push_neg at hc
    exact ⟨⟨fun _ => hc, fun _ => rfl⟩,
      ⟨fun hs => absurd hs.symm hne, fun hlt => absurd hlt (not_lt.mpr hc)⟩⟩

/-- A list whose satisfying positions are unique has at most one element in
its filtration. -/
theorem filter_length_le_one {α : Type} (l : List α) (p : α → Bool)
    (h : ∀ i j a b, l.get? i = some a → l.get? j = some b →
      p a = true → p b = true → i = j) :
    (l.filter p).length ≤ 1 := by
  induction l with
  | nil => simp
  | cons x tl ih =>
    cases hx : p x with
    | false =>
      rw [List.filter_cons]
      simp only [hx, Bool.false_eq_true, if_false]
      exact ih (fun i j a b hi hj pa pb => by
        have := h (i + 1) (j + 1) a b (by simpa using hi) (by simpa using hj) pa pb
        omega)
    | true =>
      rw [List.filter_cons]
      simp only [hx, if_true]
      have htl : tl.filter p = [] := by
        cases hfe : tl.filter p with
        | nil => rfl
        | cons y ys =>
          have hy : y ∈ tl.filter p := by rw [hfe]; exact List.mem_cons_self _ _
          have hpy : p y = true := List.of_mem_filter hy
          have hymem : y ∈ tl := List.mem_of_mem_filter hy
          obtain ⟨j, hj⟩ := List.get?_of_mem hymem
          have h0 := h 0 (j + 1) x y rfl (by simpa using hj) hx hpy
          omega
      rw [htl]
      simp

/-- A `some` answer of `get?` bounds the index. -/
theorem get?_some_lt_length {α : Type} {l : List α} {i : ℕ} {a : α}
    (h : l.get? i = some a) : i < l.length := by
  by_contra hlt
  rw [List.get?_eq_none.mpr (le_of_not_lt hlt)] at h
  exact Option.noConfusion h

/-- Reading a position of `l.set i a` either hits the replacement or the
untouched list. -/
theorem set_get?_cases {α : Type} {l : List α} {i : ℕ} {a : α} {j : ℕ} {t : α}
    (hg : (l.set i a).get? j = some t) :
    (i = j ∧ t = a) ∨ (i ≠ j ∧ l.get? j = some t) := by
  rw [List.get?_eq_getElem?, List.getElem?_set] at hg
  by_cases hij : i = j
  · subst hij
    rw [if_pos rfl] at hg
    by_cases hlen : i < l.length
    · rw [if_pos hlen] at hg
      exact Or.inl ⟨rfl, (Option.some.inj hg).symm⟩
    · rw [if_neg hlen] at hg
      exact Option.noConfusion hg
  · rw [if_neg hij] at hg
    exact Or.inr ⟨hij, by rw [List.get?_eq_getElem?]; exact hg⟩

/-- Setting an occupied position is visible at that position. -/
theorem set_get?_same {α : Type} {l : List α} {i : ℕ} {a b : α}
    (hf : l.get? i = some b) : (l.set i a).get? i = some a := by
  have hlen : i < l.length := get?_some_lt_length hf
  rw [List.get?_eq_getElem?, List.getElem?_set, if_pos rfl, if_pos hlen]

/-- Setting one position leaves the others unchanged. -/
theorem set_get?_other {α : Type} (l : List α) (i : ℕ) (a : α) (j : ℕ)
    (h : i ≠ j) : (l.set i a).get? j = l.get? j := by
  rw [List.get?_eq_getElem?, List.getElem?_set, if_neg h, List.get?_eq_getElem?]

/-- Reading a position of `l ++ [a]` hits either `l` or the appended item. -/
theorem get?_append_singleton_cases {α : Type} {l : List α} {a t : α} {j : ℕ}
    (hg : (l ++ [a]).get? j = some t) :
    (j < l.length ∧ l.get? j = some t) ∨ (j = l.length ∧ t = a) := by
  by_cases hj : j < l.length
  · exact Or.inl ⟨hj, by rw [← List.get?_append hj]; exact hg⟩
  · have hle : l.length ≤ j := le_of_not_lt hj
    rw [List.get?_append_right hle] at hg
    cases hd : j - l.length with
    | zero => rw [hd] at hg; simp at hg; exact Or.inr ⟨by omega, hg.symm⟩
    | succ m => rw [hd] at hg; simp at hg

/-- The appended item of `l ++ [a]` sits at position `l.length`. -/
theorem get?_append_singleton_self {α : Type} (l : List α) (a : α) :
    (l ++ [a]).get? l.length = some a := by
  rw [List.get?_append_right (le_refl _)]
  simp

/-- Cancelling the render task clears the handle. -/
theorem cancelRT_renderTask (st : ViewerState) :
    (cancelRenderTask st).renderTask = none := by
  unfold cancelRenderTask
  split
  · rename_i hrt
    exact hrt
  · rename_i k hrt
    split <;> rfl

/-- Cancelling changes no field other than `renderTask` and
`sessions`. -/
theorem cancelRT_scalars (st : ViewerState) :
    (cancelRenderTask st).curGen = st.curGen ∧
    (cancelRenderTask st).cancelledGens = st.cancelledGens ∧
    (cancelRenderTask st).pdfLoaded = st.pdfLoaded ∧
    (cancelRenderTask st).canvasWriter = st.canvasWriter ∧
    (cancelRenderTask st).presented = st.presented := by
  unfold cancelRenderTask
  split
  · exact ⟨rfl, rfl, rfl, rfl, rfl⟩
  · split <;> exact ⟨rfl, rfl, rfl, rfl, rfl⟩

/-- Cancelling preserves the sessions at every position other than
the task owner. -/
theorem cancelRT_get?_of_ne (st : ViewerState) (i : ℕ)
    (hne : st.renderTask ≠ some i) :
    (cancelRenderTask st).sessions.get? i = st.sessions.get? i := by
  unfold cancelRenderTask
  split
  · rfl
  · rename_i k hrt
    split
    · rfl
    · rename_i t hgk
      have hki : k ≠ i := fun he => hne (he ▸ hrt)
      exact set_get?_other _ _ _ _ hki

/-- Cancelling the render task preserves the invariant. -/
theorem viewerInv_cancelRT (st : ViewerState) (h : ViewerInv st) :
    ViewerInv (cancelRenderTask st) := by
  unfold cancelRenderTask
  split
  · exact h
  · rename_i k hrt
    split
    · rename_i hgk
      refine ⟨h.genLe, h.live, h.uniq, ?_, h.cancRend, ?_, h.flagged⟩
      · intro i s hf hph hfl
        have ho := h.owner i s hf hph hfl
        rw [hrt] at ho
        obtain rfl : k = i := Option.some.inj ho
        rw [hgk] at hf
        exact Option.noConfusion hf
      · intro k2 hk2
        exact Option.noConfusion hk2
    · rename_i t hgk
      have htph : t.phase = .rendering ∧ t.taskCancelled = false := by
        obtain ⟨u, hgu, hup, huf⟩ := h.task k hrt
        rw [hgk] at hgu
        obtain rfl : t = u := Option.some.inj hgu
        exact ⟨hup, huf⟩
      refine ⟨?_, ?_, ?_, ?_, ?_, ?_, ?_⟩
      · intro j u hu
        rcases set_get?_cases hu with ⟨rfl, rfl⟩ | ⟨hij, hold⟩
        · exact h.genLe k t hgk
        · exact h.genLe j u hold
      · intro j u hu hnc
        rcases set_get?_cases hu with ⟨rfl, rfl⟩ | ⟨hij, hold⟩
        · exact h.live k t hgk hnc
        · exact h.live j u hold hnc
      · intro j1 j2 u1 u2 hu1 hu2 hn1 hn2
        rcases set_get?_cases hu1 with ⟨rfl, rfl⟩ | ⟨hij1, hold1⟩ <;>
          rcases set_get?_cases hu2 with ⟨rfl, rfl⟩ | ⟨hij2, hold2⟩
        · rfl
        · exact h.uniq k j2 t u2 hgk hold2 hn1 hn2
        · exact h.uniq j1 k u1 t hold1 hgk hn1 hn2
        · exact h.uniq j1 j2 u1 u2 hold1 hold2 hn1 hn2
      · intro j u hu hph hfl
        rcases set_get?_cases hu with ⟨rfl, rfl⟩ | ⟨hij, hold⟩
        · exact Bool.noConfusion hfl
        · have ho := h.owner j u hold hph hfl
          rw [hrt] at ho
          exact absurd (Option.some.inj ho) hij
      · intro j u hu hgc hph
        rcases set_get?_cases hu with ⟨rfl, rfl⟩ | ⟨hij, hold⟩
        · rfl
        · exact h.cancRend j u hold hgc hph
      · intro k2 hk2
        exact Option.noConfusion hk2
      · intro j u hu hfl
        rcases set_get?_cases hu with ⟨rfl, rfl⟩ | ⟨hij, hold⟩
        · exact Or.inl htph.1
        · exact h.flagged j u hold hfl

/-- Replacing a non-rendering, non-owning session preserves the
invariant. -/
theorem viewerInv_setAt (st : ViewerState) (h : ViewerInv st) (i : ℕ)
    (s s2 : RenderSession)
    (hf : st.sessions.get? i = some s)
    (hgen : s2.gen = s.gen)
    (hph : s2.phase ≠ .rendering)
    (h7 : s2.taskCancelled = true → s2.phase = .dead)
    (hno : st.renderTask ≠ some i) :
    ViewerInv (setSessionAt st i s2) := by
  refine ⟨?_, ?_, ?_, ?_, ?_, ?_, ?_⟩
  · intro j u hu
    rcases set_get?_cases hu with ⟨rfl, rfl⟩ | ⟨hij, hold⟩
    · rw [hgen]; exact h.genLe i s hf
    · exact h.genLe j u hold
  · intro j u hu hnc
    rcases set_get?_cases hu with ⟨rfl, rfl⟩ | ⟨hij, hold⟩
    · rw [hgen]
      exact h.live i s hf (by rw [← hgen]; exact hnc)
    · exact h.live j u hold hnc
  · intro j1 j2 u1 u2 hu1 hu2 hn1 hn2
    rcases set_get?_cases hu1 with ⟨rfl, rfl⟩ | ⟨hij1, hold1⟩ <;>
      rcases set_get?_cases hu2 with ⟨rfl, rfl⟩ | ⟨hij2, hold2⟩
    · rfl
    · exact h.uniq i j2 s u2 hf hold2 (by rw [← hgen]; exact hn1) hn2
    · exact h.uniq j1 i u1 s hold1 hf hn1 (by rw [← hgen]; exact hn2)
    · exact h.uniq j1 j2 u1 u2 hold1 hold2 hn1 hn2
  · intro j u hu hph2 hfl
    rcases set_get?_cases hu with ⟨rfl, rfl⟩ | ⟨hij, hold⟩
    · exact absurd hph2 hph
    · exact h.owner j u hold hph2 hfl
  · intro j u hu hgc hph2
    rcases set_get?_cases hu with ⟨rfl, rfl⟩ | ⟨hij, hold⟩
    · exact absurd hph2 hph
    · exact h.cancRend j u hold hgc hph2
  · intro k hk
    obtain ⟨t, hgt, htph, htfl⟩ := h.task k hk
    have hik : i ≠ k := fun he => hno (by rw [he]; exact hk)
    refine ⟨t, ?_, htph, htfl⟩
    show (st.sessions.set i s2).get? k = some t
    rw [set_get?_other _ _ _ _ hik]
    exact hgt
  · intro j u hu hfl
    rcases set_get?_cases hu with ⟨rfl, rfl⟩ | ⟨hij, hold⟩
    · exact Or.inr (h7 hfl)
    · exact h.flagged j u hold hfl

/-- An effect re-run preserves the invariant. -/
theorem viewerInv_rerun (st : ViewerState) (h : ViewerInv st) :
    ViewerInv (effectRerun st) := by
  have hc := viewerInv_cancelRT st h
  have hrt1 : (cancelRenderTask st).renderTask = none := cancelRT_renderTask st
  have hcg1 : (cancelRenderTask st).curGen = st.curGen := (cancelRT_scalars st).1
  have hcc1 : (cancelRenderTask st).cancelledGens = st.cancelledGens :=
    (cancelRT_scalars st).2.1
  have hsess : (effectRerun st).sessions
      = (cancelRenderTask st).sessions ++ [⟨st.curGen + 1, .started, false⟩] := rfl
  have hcanc : (effectRerun st).cancelledGens
      = st.curGen :: (cancelRenderTask st).cancelledGens := rfl
  have hcur : (effectRerun st).curGen = st.curGen + 1 := rfl
  have hrtR : (effectRerun st).renderTask = none := hrt1
  refine ⟨?_, ?_, ?_, ?_, ?_, ?_, ?_⟩
  · intro j u hu
    rw [hsess] at hu
    rw [hcur]
    rcases get?_append_singleton_cases hu with ⟨hjl, hold⟩ | ⟨hjl, rfl⟩
    · have := hc.genLe j u hold
      rw [hcg1] at this
      omega
    · exact le_refl _
  · intro j u hu hnc
    rw [hsess] at hu
    rw [hcanc] at hnc
    rw [hcur]
    rcases get?_append_singleton_cases hu with ⟨hjl, hold⟩ | ⟨hjl, rfl⟩
    · exfalso
      rw [List.mem_cons] at hnc
      push_neg at hnc
      have := hc.live j u hold hnc.2
      rw [hcg1] at this
      exact hnc.1 this
    · rfl
  · intro j1 j2 u1 u2 hu1 hu2 hn1 hn2
    rw [hsess] at hu1 hu2
    rw [hcanc] at hn1 hn2
    have key : ∀ j u, ((cancelRenderTask st).sessions ++
        [(⟨st.curGen + 1, .started, false⟩ : RenderSession)]).get? j = some u →
        u.gen ∉ st.curGen :: (cancelRenderTask st).cancelledGens →
        j = (cancelRenderTask st).sessions.length := by
      intro j u hu hnc
      rcases get?_append_singleton_cases hu with ⟨hjl, hold⟩ | ⟨hjl, rfl⟩
      · exfalso
        rw [List.mem_cons] at hnc
        push_neg at hnc
        have := hc.live j u hold hnc.2
        rw [hcg1] at this
        exact hnc.1 this
      · exact hjl
    have e1 := key j1 u1 hu1 hn1
    have e2 := key j2 u2 hu2 hn2
    rw [e1, e2]
  · intro j u hu hph hfl
    exfalso
    rw [hsess] at hu
    rcases get?_append_singleton_cases hu with ⟨hjl, hold⟩ | ⟨hjl, rfl⟩
    · have := hc.owner j u hold hph hfl
      rw [hrt1] at this
      exact Option.noConfusion this
    · exact RenderPhase.noConfusion hph
  · intro j u hu hgc hph
    rw [hsess] at hu
    rcases get?_append_singleton_cases hu with ⟨hjl, hold⟩ | ⟨hjl, rfl⟩
    · cases hq : u.taskCancelled with
      | true => rfl
      | false =>
        exfalso
        have := hc.owner j u hold hph hq
        rw [hrt1] at this
        exact Option.noConfusion this
    · exact RenderPhase.noConfusion hph
  · intro k hk
    rw [hrtR] at hk
    exact Option.noConfusion hk
  · intro j u hu hfl
    rw [hsess] at hu
    rcases get?_append_singleton_cases hu with ⟨hjl, hold⟩ | ⟨hjl, rfl⟩
    · exact hc.flagged j u hold hfl
    · exact Bool.noConfusion hfl

/-- The render task never points at a session of the wrong phase or at a
flagged session. -/
theorem not_owner_of_phase (st : ViewerState) (h : ViewerInv st) (i : ℕ)
    (s : RenderSession) (hf : st.sessions.get? i = some s)
    (hcond : s.phase ≠ .rendering ∨ s.taskCancelled = true) :
    st.renderTask ≠ some i := by
  intro he
  obtain ⟨t, hgt, htph, htfl⟩ := h.task i he
  rw [hf] at hgt
  obtain rfl : s = t := Option.some.inj hgt
  rcases hcond with hc | hc
  · exact hc htph
  · rw [htfl] at hc
    exact Bool.noConfusion hc

/-- A session that is neither rendering nor dead is unflagged. -/
theorem flag_false_of_phase (st : ViewerState) (h : ViewerInv st) (i : ℕ)
    (s : RenderSession) (hf : st.sessions.get? i = some s)
    (h1 : s.phase ≠ .rendering) (h2 : s.phase ≠ .dead) :
    s.taskCancelled = false := by
  cases hfl : s.taskCancelled with
  | false => rfl
  | true =>
    rcases h.flagged i s hf hfl with hr | hr
    · exact absurd hr h1
    · exact absurd hr h2

/-- Resuming any invocation preserves the invariant. -/
theorem viewerInv_stepSession (st : ViewerState) (i : ℕ) (h : ViewerInv st) :
    ViewerInv (stepSession st i) := by
  unfold stepSession
  split
  · exact h
  · rename_i s hf
    split
    · -- started
      rename_i hph
      split
      · -- cancelled: die
        exact viewerInv_setAt st h i s _ hf rfl
          (fun he => RenderPhase.noConfusion he) (fun _ => rfl)
          (not_owner_of_phase st h i s hf (Or.inl (by rw [hph]; decide)))
      · rename_i hg
        have hno : st.renderTask ≠ some i :=
          not_owner_of_phase st h i s hf (Or.inl (by rw [hph]; decide))
        have hc := viewerInv_cancelRT st h
        have hf1 : (cancelRenderTask st).sessions.get? i = some s := by
          rw [cancelRT_get?_of_ne st i hno]; exact hf
        have hrt1 := cancelRT_renderTask st
        have hsfl : s.taskCancelled = false :=
          flag_false_of_phase st h i s hf (by rw [hph]; decide) (by rw [hph]; decide)
        split
        · exact viewerInv_setAt _ hc i s _ hf1 rfl
            (fun he => RenderPhase.noConfusion he)
            (fun hfl => absurd hfl (by simp [hsfl]))
            (by rw [hrt1]; simp)
        · exact viewerInv_setAt _ hc i s _ hf1 rfl
            (fun he => RenderPhase.noConfusion he)
            (fun hfl => absurd hfl (by simp [hsfl]))
            (by rw [hrt1]; simp)
    · -- loading
      rename_i hph
      split
      · exact viewerInv_setAt st h i s _ hf rfl
          (fun he => RenderPhase.noConfusion he) (fun _ => rfl)
          (not_owner_of_phase st h i s hf (Or.inl (by rw [hph]; decide)))
      · rename_i hg
        have hP : ViewerInv { st with pdfLoaded := true } :=
          ⟨h.genLe, h.live, h.uniq, h.owner, h.cancRend, h.task, h.flagged⟩
        have hsfl : s.taskCancelled = false :=
          flag_false_of_phase st h i s hf (by rw [hph]; decide) (by rw [hph]; decide)
        exact viewerInv_setAt _ hP i s _ hf rfl
          (fun he => RenderPhase.noConfusion he)
          (fun hfl => absurd hfl (by simp [hsfl]))
          (not_owner_of_phase st h i s hf (Or.inl (by rw [hph]; decide)))
    · -- gettingPage
      rename_i hph
      split
      · exact viewerInv_setAt st h i s _ hf rfl
          (fun he => RenderPhase.noConfusion he) (fun _ => rfl)
          (not_owner_of_phase st h i s hf (Or.inl (by rw [hph]; decide)))
      · rename_i hg
        have hsfl : s.taskCancelled = false :=
          flag_false_of_phase st h i s hf (by rw [hph]; decide) (by rw [hph]; decide)
        refine ⟨?_, ?_, ?_, ?_, ?_, ?_, ?_⟩
        · intro j u hu
          rcases set_get?_cases hu with ⟨rfl, rfl⟩ | ⟨hij, hold⟩
          · exact h.genLe i s hf
          · exact h.genLe j u hold
        · intro j u hu hnc
          rcases set_get?_cases hu with ⟨rfl, rfl⟩ | ⟨hij, hold⟩
          · exact h.live i s hf hnc
          · exact h.live j u hold hnc
        · intro j1 j2 u1 u2 hu1 hu2 hn1 hn2
          rcases set_get?_cases hu1 with ⟨rfl, rfl⟩ | ⟨hij1, hold1⟩ <;>
            rcases set_get?_cases hu2 with ⟨rfl, rfl⟩ | ⟨hij2, hold2⟩
          · rfl
          · exact h.uniq i j2 s u2 hf hold2 hn1 hn2
          · exact h.uniq j1 i u1 s hold1 hf hn1 hn2
          · exact h.uniq j1 j2 u1 u2 hold1 hold2 hn1 hn2
        · intro j u hu hph2 hfl
          rcases set_get?_cases hu with ⟨rfl, rfl⟩ | ⟨hij, hold⟩
          · rfl
          · exfalso
            by_cases hgu : u.gen ∈ st.cancelledGens
            · have := h.cancRend j u hold hgu hph2
              rw [this] at hfl
              exact Bool.noConfusion hfl
            · exact hij (h.uniq i j s u hf hold hg hgu)
        · intro j u hu hgc hph2
          rcases set_get?_cases hu with ⟨rfl, rfl⟩ | ⟨hij, hold⟩
          · exact absurd hgc hg
          · exact h.cancRend j u hold hgc hph2
        · intro k hk
          have hik : i = k := Option.some.inj hk
          refine ⟨{ s with phase := .rendering }, ?_, rfl, hsfl⟩
          rw [← hik]
          exact set_get?_same hf
        · intro j u hu hfl
          rcases set_get?_cases hu with ⟨rfl, rfl⟩ | ⟨hij, hold⟩
          · exact absurd hfl (by simp [hsfl])
          · exact h.flagged j u hold hfl
    · -- rendering
      rename_i hph
      split
      · -- task cancelled: die
        rename_i hq
        exact viewerInv_setAt st h i s _ hf rfl
          (fun he => RenderPhase.noConfusion he) (fun _ => rfl)
          (not_owner_of_phase st h i s hf (Or.inr hq))
      · rename_i hq
        have hsfl : s.taskCancelled = false := by
          cases hfl : s.taskCancelled with
          | false => rfl
          | true => exact absurd hfl hq
        split
        · -- cancelled generation but unflagged: impossible while rendering
          rename_i hg
          exact absurd (h.cancRend i s hf hg hph) hq
        · rename_i hg
          have how : st.renderTask = some i := h.owner i s hf hph hsfl
          refine ⟨?_, ?_, ?_, ?_, ?_, ?_, ?_⟩
          · intro j u hu
            rcases set_get?_cases hu with ⟨rfl, rfl⟩ | ⟨hij, hold⟩
            · exact h.genLe i s hf
            · exact h.genLe j u hold
          · intro j u hu hnc
            rcases set_get?_cases hu with ⟨rfl, rfl⟩ | ⟨hij, hold⟩
            · exact h.live i s hf hnc
            · exact h.live j u hold hnc
          · intro j1 j2 u1 u2 hu1 hu2 hn1 hn2
            rcases set_get?_cases hu1 with ⟨rfl, rfl⟩ | ⟨hij1, hold1⟩ <;>
              rcases set_get?_cases hu2 with ⟨rfl, rfl⟩ | ⟨hij2, hold2⟩
            · rfl
            · exact h.uniq i j2 s u2 hf hold2 hn1 hn2
            · exact h.uniq j1 i u1 s hold1 hf hn1 hn2
            · exact h.uniq j1 j2 u1 u2 hold1 hold2 hn1 hn2
          · intro j u hu hph2 hfl
            rcases set_get?_cases hu with ⟨rfl, rfl⟩ | ⟨hij, hold⟩
            · exact RenderPhase.noConfusion hph2
            · exfalso
              have := h.owner j u hold hph2 hfl
              rw [how] at this
              exact hij (Option.some.inj this)
          · intro j u hu hgc hph2
            rcases set_get?_cases hu with ⟨rfl, rfl⟩ | ⟨hij, hold⟩
            · exact RenderPhase.noConfusion hph2
            · exact h.cancRend j u hold hgc hph2
          · intro k hk
            exact Option.noConfusion hk
          · intro j u hu hfl
            rcases set_get?_cases hu with ⟨rfl, rfl⟩ | ⟨hij, hold⟩
            · exact absurd hfl (by simp [hsfl])
            · exact h.flagged j u hold hfl
    · exact h
    · exact h

/-- The initial state satisfies the invariant. -/
theorem viewerInv_init : ViewerInv viewerInit := by
  have hg : ∀ j u, viewerInit.sessions.get? j = some u →
      j = 0 ∧ u = ⟨0, .started, false⟩ := by
    intro j u hu
    cases j with
    | zero => exact ⟨rfl, (Option.some.inj hu).symm⟩
    | succ n => exact Option.noConfusion hu
  refine ⟨?_, ?_, ?_, ?_, ?_, ?_, ?_⟩
  · intro j u hu
    obtain ⟨rfl, rfl⟩ := hg j u hu
    exact le_refl _
  · intro j u hu _
    obtain ⟨rfl, rfl⟩ := hg j u hu
    rfl
  · intro j1 j2 u1 u2 hu1 hu2 _ _
    obtain ⟨rfl, rfl⟩ := hg j1 u1 hu1
    obtain ⟨h2, rfl⟩ := hg j2 u2 hu2
    exact h2.symm
  · intro j u hu hph _
    obtain ⟨rfl, rfl⟩ := hg j u hu
    exact RenderPhase.noConfusion hph
  · intro j u hu _ hph
    obtain ⟨rfl, rfl⟩ := hg j u hu
    exact RenderPhase.noConfusion hph
  · intro k hk
    exact Option.noConfusion hk
  · intro j u hu hfl
    obtain ⟨rfl, rfl⟩ := hg j u hu
    exact Bool.noConfusion hfl

/-- Any trace without resize reinvocations preserves the invariant. -/
theorem viewerInv_foldl (evs : List ViewerEv) :
    ∀ st, ViewerInv st → ViewerEv.resize ∉ evs →
      ViewerInv (evs.foldl viewerStep st) := by
  induction evs with
  | nil => intro st h _; exact h
  | cons ev rest ih =>
    intro st h hnr
    rw [List.foldl_cons]
    have hnr2 : ViewerEv.resize ∉ rest := fun hm => hnr (List.mem_cons_of_mem _ hm)
    have hne : ev ≠ ViewerEv.resize := fun he => hnr (he ▸ List.mem_cons_self _ _)
    refine ih (viewerStep st ev) ?_ hnr2
    cases ev with
    | rerun => exact viewerInv_rerun st h
    | resize => exact absurd rfl hne
    | step i => exact viewerInv_stepSession st i h

/-- At most one session is active in an invariant state. -/
theorem activeCount_le_one (st : ViewerState) (h : ViewerInv st) :
    activeCount st ≤ 1 := by
  apply filter_length_le_one
  intro i j a b hga hgb hpa hpb
  have hna : a.gen ∉ st.cancelledGens := by
    simp [isActiveSession] at hpa
    exact hpa.2
  have hnb : b.gen ∉ st.cancelledGens := by
    simp [isActiveSession] at hpb
    exact hpb.2
  exact h.uniq i j a b hga hgb hna hnb

/-- In an invariant state, stepping a session of a cancelled generation
writes neither the canvas surface nor the presented output. -/
theorem stepSession_no_write_of_cancelled (st : ViewerState) (h : ViewerInv st)
    (i : ℕ) (s : RenderSession) (hf : st.sessions.get? i = some s)
    (hgen : s.gen ∈ st.cancelledGens) :
    (stepSession st i).canvasWriter = st.canvasWriter ∧
    (stepSession st i).presented = st.presented := by
  unfold stepSession
  split
  · exact ⟨rfl, rfl⟩
  · rename_i s2 hf2
    rw [hf] at hf2
    obtain rfl : s = s2 := Option.some.inj hf2
    split
    · -- started
      split
      · exact ⟨rfl, rfl⟩
      · rename_i hg
        exact absurd hgen hg
    · -- loading
      split
      · exact ⟨rfl, rfl⟩
      · rename_i hg
        exact absurd hgen hg
    · -- gettingPage
      split
      · exact ⟨rfl, rfl⟩
      · rename_i hg
        exact absurd hgen hg
    · -- rendering
      rename_i hph
      split
      · exact ⟨rfl, rfl⟩
      · rename_i hq
        exact absurd (h.cancRend i s hf hgen hph) hq
    · exact ⟨rfl, rfl⟩
    · exact ⟨rfl, rfl⟩

/-- C3 as stated is false: a resize-triggered `renderPdf` invocation shares
the effect's `isCancelled` flag and cancels only an already-started render
task.  Started while the first invocation is still loading the document,
it cancels nothing: two sessions are active at once, and the first-started
session can rasterize last, so the final presented output is the first
session's, not the second's. -/
theorem C3_counterexample :
    activeCount (viewerRun [ViewerEv.step 0, ViewerEv.resize]) = 2 ∧
    (viewerRun [ViewerEv.step 0, ViewerEv.resize, ViewerEv.step 1, ViewerEv.step 1,
      ViewerEv.step 1, ViewerEv.step 1]).presented = some 1 ∧
    (viewerRun [ViewerEv.step 0, ViewerEv.resize, ViewerEv.step 1, ViewerEv.step 1,
      ViewerEv.step 1, ViewerEv.step 1, ViewerEv.step 0, ViewerEv.step 0,
      ViewerEv.step 0]).presented = some 0 ∧
    (viewerRun [ViewerEv.step 0, ViewerEv.resize, ViewerEv.step 1, ViewerEv.step 1,
      ViewerEv.step 1, ViewerEv.step 1, ViewerEv.step 0, ViewerEv.step 0,
      ViewerEv.step 0]).canvasWriter = some 0 := by
  exact ⟨by decide, by decide, by decide, by decide⟩

/-- C3 amended: for every trace in which the render effect is re-triggered
only by dependency changes (url/zoom re-runs, no resize reinvocation), at
most one render session is active at any time, and resuming a session whose
effect generation has been cancelled never writes the canvas surface and
never changes the presented output. -/
theorem C3_cancellation (evs : List ViewerEv) (hnr : ViewerEv.resize ∉ evs) :
    activeCount (viewerRun evs) ≤ 1 ∧
    ∀ i s, (viewerRun evs).sessions.get? i = some s →
      s.gen ∈ (viewerRun evs).cancelledGens →
      (stepSession (viewerRun evs) i).canvasWriter = (viewerRun evs).canvasWriter ∧
      (stepSession (viewerRun evs) i).presented = (viewerRun evs).presented := by
  have hinv : ViewerInv (viewerRun evs) := viewerInv_foldl evs viewerInit viewerInv_init hnr
  exact ⟨activeCount_le_one _ hinv,
    fun i s hf hg => stepSession_no_write_of_cancelled _ hinv i s hf hg⟩

/-- Witness for C3 amended on the trace of one zoom-triggered re-run: the
superseded session's resumption leaves the presented output unchanged. -/
theorem C3_cancellation_witness :
    activeCount (viewerRun [ViewerEv.rerun, ViewerEv.step 1]) ≤ 1 ∧
    (stepSession (viewerRun [ViewerEv.rerun]) 0).presented
      = (viewerRun [ViewerEv.rerun]).presented :=
  ⟨(C3_cancellation [ViewerEv.rerun, ViewerEv.step 1] (by decide)).1,
   ((C3_cancellation [ViewerEv.rerun] (by decide)).2 0 ⟨0, .started, false⟩
      (by decide) (by decide)).2⟩

/-- Witness for C9 amended: a thumb entirely over a dark section gets the
light variant. -/
theorem C9_thumb_theming_witness :
    thumbVariantClass (newIsLight false 0 10 [⟨0, 10, ["resume-section"]⟩]) = "on-light" :=
  (C9_thumb_theming false 0 10 [⟨0, 10, ["resume-section"]⟩]
    (by simp [darkPixels, lightPixels, isSectionLight, sectionOverlap,
      List.filter])).2.mpr
    (by simp [darkPixels, lightPixels, isSectionLight, sectionOverlap,
      List.filter])

end Portfolio
